import Mathlib

/-
Verification of the Bali Document Notation component model.

This development gives a shallow embedding, in Lean, of the numeric
normalization utilities, the Probability and Angle element constructors,
the Complex arithmetic special cases, the generic Comparator, the merge
sorter, and the removeItems range operation of the repository, and proves
(or refutes) the specified properties about them.

JavaScript numbers are modelled by the type JSNum: NaN, the two infinities,
and finite values.  Finite double values are modelled as exact rational
numbers; double arithmetic is modelled as exact rational arithmetic (the
properties proved here do not depend on rounding).  The string form of a
number, used by the source only through equality tests such as
a.toString() === b.toString(), is modelled by strEqNum, since the
double-to-string conversion is injective (with -0 printing as 0, which the
model identifies with 0).
-/

namespace BaliDoc

/-- A JavaScript number: NaN, +Infinity, -Infinity or a finite value. -/
inductive JSNum where
  | nan
  | posInf
  | negInf
  | fin (q : ℚ)
deriving DecidableEq, Repr

namespace JSNum

/-- JS truthiness of a number: 0 and NaN are falsy, all other numbers truthy. -/
def jsTruthy : JSNum → Bool
  | .nan => false
  | .posInf => true
  | .negInf => true
  | .fin q => q != 0

/-- Models a.toString() === b.toString() for two JS numbers: the conversion of
doubles to strings is injective, NaN prints as NaN and the infinities print
as Infinity and -Infinity. -/
def strEqNum : JSNum → JSNum → Bool
  | .nan, .nan => true
  | .posInf, .posInf => true
  | .negInf, .negInf => true
  | .fin x, .fin y => x == y
  | _, _ => false

/-- JS subtraction a - b (finite subtraction modelled exactly). -/
def jsSub : JSNum → JSNum → JSNum
  | .nan, _ => .nan
  | _, .nan => .nan
  | .posInf, .posInf => .nan
  | .posInf, _ => .posInf
  | .negInf, .negInf => .nan
  | .negInf, _ => .negInf
  | .fin _, .posInf => .negInf
  | .fin _, .negInf => .posInf
  | .fin x, .fin y => .fin (x - y)

/-- Math.sign. -/
def mathSign : JSNum → JSNum
  | .nan => .nan
  | .posInf => .fin 1
  | .negInf => .fin (-1)
  | .fin q => if q < 0 then .fin (-1) else if 0 < q then .fin 1 else .fin 0

/-- JS comparison a < b (false whenever NaN is involved). -/
def jsLt : JSNum → JSNum → Bool
  | .nan, _ => false
  | _, .nan => false
  | .negInf, .negInf => false
  | .negInf, _ => true
  | _, .negInf => false
  | .posInf, _ => false
  | .fin _, .posInf => true
  | .fin x, .fin y => x < y

/-- JS comparison a > b. -/
def jsGt (a b : JSNum) : Bool := jsLt b a

/-- JS comparison a <= b (false whenever NaN is involved). -/
def jsLe : JSNum → JSNum → Bool
  | .nan, _ => false
  | _, .nan => false
  | a, b => !(jsLt b a)

/-- JS comparison a >= b. -/
def jsGe (a b : JSNum) : Bool := jsLe b a

end JSNum

open JSNum

/-- The outcome of running a JS computation: either a thrown error or a value. -/
inductive JSOutcome (α : Type) where
  | thrown
  | value (v : α)
deriving DecidableEq, Repr

/-! ## Pole locking (src/unnamed/part_003, lockOnPole) -/

/-- The epsilon used by lockOnPole: the literal 6.123233995736766e-16. -/
def epsQ : ℚ := 6123233995736766 / 10 ^ 31

/-- The large threshold used by lockOnPole: the literal 16331239353195370. -/
def thrQ : ℚ := 16331239353195370

/-- lockOnPole from src/unnamed/part_003 lines 277-283, branch for branch. -/
def lockOnPole (number : JSNum) : JSNum :=
  if jsGt number (.fin 0) && jsLe number (.fin epsQ) then .fin 0
  else if jsLt number (.fin 0) && jsGe number (.fin (-epsQ)) then .fin 0
  else if jsGt number (.fin 0) && jsGe number (.fin thrQ) then .posInf
  else if jsLt number (.fin 0) && jsLe number (.fin (-thrQ)) then .posInf
  else number

/-! ## Probability construction (src/src/elements/Probability.js) -/

/-- The possible JS arguments to the Probability constructor. -/
inductive ProbArg where
  | undefV
  | nullV
  | boolV (b : Bool)
  | numV (n : JSNum)
deriving DecidableEq, Repr

/-- A constructed Probability element: its stored value. -/
structure Probability where
  value : JSNum
deriving DecidableEq, Repr

/-- toNumber from Probability.js lines 115-117: returns the stored value. -/
def Probability.toNumber (p : Probability) : JSNum := p.value

/-- toBoolean from Probability.js lines 105-107: this.value >= 0.5. -/
def Probability.toBoolean (p : Probability) : Bool := jsGe p.value (.fin (1 / 2))

/-- The Probability constructor, Probability.js lines 31-42: defaults
undefined and null to false, converts booleans to 1 and 0, then throws when
value < 0 || value > 1 (JS comparisons, false on NaN), otherwise stores the
value.  The subsequent setSource(this.toLiteral()) call only renders the
stored value to a string and cannot throw. -/
def probabilityCtor (arg : ProbArg) : JSOutcome Probability :=
  let v : JSNum :=
    match arg with
    | .undefV => .fin 0
    | .nullV => .fin 0
    | .boolV b => if b then .fin 1 else .fin 0
    | .numV n => n
  if jsLt v (.fin 0) || jsGt v (.fin 1) then .thrown
  else .value ⟨v⟩

/-! ## Theorems for C9 -/

/-- Reduction of lockOnPole on a finite value to rational comparisons. -/
theorem lockOnPole_fin (q : ℚ) :
    lockOnPole (.fin q) =
      if 0 < q ∧ q ≤ epsQ then .fin 0
      else if q < 0 ∧ -epsQ ≤ q then .fin 0
      else if 0 < q ∧ thrQ ≤ q then .posInf
      else if q < 0 ∧ q ≤ -thrQ then .posInf
      else .fin q := by
  have h1 : jsGt (JSNum.fin q) (.fin 0) = decide (0 < q) := rfl
  have h2 : jsLe (JSNum.fin q) (.fin epsQ) = !decide (epsQ < q) := rfl
  have h3 : jsLt (JSNum.fin q) (.fin 0) = decide (q < 0) := rfl
  have h4 : jsGe (JSNum.fin q) (.fin (-epsQ)) = !decide (q < -epsQ) := rfl
  have h5 : jsGe (JSNum.fin q) (.fin thrQ) = !decide (q < thrQ) := rfl
  have h6 : jsLe (JSNum.fin q) (.fin (-thrQ)) = !decide (-thrQ < q) := rfl
  simp only [lockOnPole, h1, h2, h3, h4, h5, h6, Bool.and_eq_true,
    Bool.not_eq_eq_eq_not, Bool.not_true, decide_eq_true_eq,
    decide_eq_false_iff_not, not_lt]

theorem epsQ_pos : (0:ℚ) < epsQ := by norm_num [epsQ]

theorem epsQ_lt_thrQ : epsQ < thrQ := by norm_num [epsQ, thrQ]

/-- C9: for every floating-point number x, lockOnPole returns exactly 0
whenever 0 < |x| <= 6.123233995736766e-16, returns Infinity whenever
|x| >= 16331239353195370 (for both positive and negative x, and for the two
infinities), and returns x unchanged for every other finite value. -/
theorem lockOnPole_spec :
    (∀ q : ℚ, 0 < |q| → |q| ≤ epsQ → lockOnPole (.fin q) = .fin 0)
    ∧ (∀ q : ℚ, thrQ ≤ |q| → lockOnPole (.fin q) = .posInf)
    ∧ (∀ q : ℚ, q = 0 ∨ (epsQ < |q| ∧ |q| < thrQ) → lockOnPole (.fin q) = .fin q)
    ∧ lockOnPole .posInf = .posInf
    ∧ lockOnPole .negInf = .posInf := by
  have heps := epsQ_pos
  have het := epsQ_lt_thrQ
  refine ⟨?_, ?_, ?_, rfl, rfl⟩
  · intro q h0 hle
    rw [lockOnPole_fin]
    rcases lt_trichotomy q 0 with h | h | h
    · rw [abs_of_neg h] at hle
      rw [if_neg (by rintro ⟨hc, -⟩; linarith), if_pos ⟨h, by linarith⟩]
    · subst h; simp at h0
    · rw [abs_of_pos h] at hle
      rw [if_pos ⟨h, hle⟩]
  · intro q hge
    rw [lockOnPole_fin]
    rcases lt_trichotomy q 0 with h | h | h
    · rw [abs_of_neg h] at hge
      rw [if_neg (by rintro ⟨hc, -⟩; linarith),
        if_neg (by rintro ⟨-, hc⟩; linarith),
        if_neg (by rintro ⟨hc, -⟩; linarith),
        if_pos ⟨h, by linarith⟩]
    · subst h; simp at hge; linarith
    · rw [abs_of_pos h] at hge
      rw [if_neg (by rintro ⟨-, hc⟩; linarith),
        if_neg (by rintro ⟨hc, -⟩; linarith),
        if_pos ⟨h, hge⟩]
  · intro q hcase
    rw [lockOnPole_fin]
    rcases hcase with h | ⟨hlo, hhi⟩
    · subst h
      rw [if_neg (by rintro ⟨hc, -⟩; linarith),
        if_neg (by rintro ⟨hc, -⟩; linarith),
        if_neg (by rintro ⟨hc, -⟩; linarith),
        if_neg (by rintro ⟨hc, -⟩; linarith)]
    · rcases lt_trichotomy q 0 with h | h | h
      · rw [abs_of_neg h] at hlo hhi
        rw [if_neg (by rintro ⟨hc, -⟩; linarith),
          if_neg (by rintro ⟨-, hc⟩; linarith),
          if_neg (by rintro ⟨hc, -⟩; linarith),
          if_neg (by rintro ⟨-, hc⟩; linarith)]
      · subst h; simp at hlo; linarith
      · rw [abs_of_pos h] at hlo hhi
        rw [if_neg (by rintro ⟨-, hc⟩; linarith),
          if_neg (by rintro ⟨hc, -⟩; linarith),
          if_neg (by rintro ⟨-, hc⟩; linarith),
          if_neg (by rintro ⟨hc, -⟩; linarith)]

/-- Witness for C9: lockOnPole locks 1e-16 to zero, 2e16 to Infinity and
leaves 1 unchanged. -/
theorem lockOnPole_spec_witness :
    lockOnPole (.fin (1 / 10 ^ 16)) = .fin 0
    ∧ lockOnPole (.fin (2 * 10 ^ 16)) = .posInf
    ∧ lockOnPole (.fin 1) = .fin 1 := by
  refine ⟨?_, ?_, ?_⟩
  · exact lockOnPole_spec.1 (1 / 10 ^ 16)
      (by rw [abs_of_pos (by norm_num)]; norm_num)
      (by rw [abs_of_pos (by norm_num)]; norm_num [epsQ])
  · exact lockOnPole_spec.2.1 (2 * 10 ^ 16)
      (by rw [abs_of_pos (by norm_num)]; norm_num [thrQ])
  · exact lockOnPole_spec.2.2.1 1
      (Or.inr (by rw [abs_of_pos (by norm_num)]; norm_num [epsQ, thrQ]))

/-! ## Theorems for C6 and C10 -/

/-- C6: constructing a Probability from a numeric value outside [0,1] throws
and no Probability is produced; for every numeric value inside [0,1] the
construction succeeds and toNumber() returns the value unchanged. -/
theorem probability_range_guard :
    (∀ q : ℚ, 0 ≤ q → q ≤ 1 →
      probabilityCtor (.numV (.fin q)) = .value ⟨.fin q⟩
      ∧ Probability.toNumber ⟨.fin q⟩ = .fin q)
    ∧ (∀ q : ℚ, q < 0 ∨ 1 < q → probabilityCtor (.numV (.fin q)) = .thrown)
    ∧ probabilityCtor (.numV .posInf) = .thrown
    ∧ probabilityCtor (.numV .negInf) = .thrown := by
  refine ⟨?_, ?_, ?_, ?_⟩
  · intro q h0 h1
    constructor
    · have hlt : jsLt (.fin q) (.fin 0) = false := by
        simp [jsLt]; linarith
      have hgt : jsGt (.fin q) (.fin 1) = false := by
        simp [jsGt, jsLt]; linarith
      simp [probabilityCtor, hlt, hgt]
    · rfl
  · intro q h
    rcases h with h | h
    · have hlt : jsLt (.fin q) (.fin 0) = true := by simp [jsLt, h]
      simp [probabilityCtor, hlt]
    · have hgt : jsGt (.fin q) (.fin 1) = true := by simp [jsGt, jsLt, h]
      simp [probabilityCtor, hgt]
  · simp [probabilityCtor, jsGt, jsLt]
  · simp [probabilityCtor, jsLt]

/-- Witness for C6: value 1/2 is accepted and kept, value 2 and value -1
are rejected. -/
theorem probability_range_guard_witness :
    (probabilityCtor (.numV (.fin (1 / 2))) = .value ⟨.fin (1 / 2)⟩
      ∧ Probability.toNumber ⟨.fin (1 / 2)⟩ = .fin (1 / 2))
    ∧ probabilityCtor (.numV (.fin 2)) = .thrown
    ∧ probabilityCtor (.numV (.fin (-1))) = .thrown := by
  refine ⟨?_, ?_, ?_⟩
  · exact probability_range_guard.1 (1 / 2) (by norm_num) (by norm_num)
  · exact probability_range_guard.2.1 2 (Or.inr (by norm_num))
  · exact probability_range_guard.2.1 (-1) (Or.inl (by norm_num))

/-- C10: the Probability constructor does not throw on NaN: both range-guard
comparisons are false for NaN, so a Probability whose stored value is NaN is
produced even though NaN is not in [0,1]. -/
theorem probability_nan_unguarded :
    probabilityCtor (.numV .nan) = .value ⟨.nan⟩
    ∧ jsLt .nan (.fin 0) = false
    ∧ jsGt .nan (.fin 1) = false := by
  refine ⟨?_, rfl, rfl⟩
  simp [probabilityCtor, jsLt, jsGt]

/-! ## Angle construction (src/src/elements/Angle.js lines 50-90)

The Calculator utility (utilities.Calculator) is not under src/; per the
spec its arithmetic operations (sum, difference, product, quotient,
remainder) are the shared precision protocol over doubles, modelled here as
exact rational arithmetic.  Math.PI is the double closest to pi, the exact
rational 884279719003555 / 2^48. -/

/-- Math.PI as an exact rational (the value of the closest double). -/
def piQ : ℚ := 884279719003555 / 2 ^ 48

/-- calculator.product(Math.PI, 2), exact since doubling a double is exact. -/
def twoPiQ : ℚ := piQ * 2

/-- Truncation toward zero, the rounding used by the JS remainder operator. -/
def ratTrunc (q : ℚ) : ℤ := if 0 ≤ q then ⌊q⌋ else ⌈q⌉

/-- Modelled from the spec: the Calculator.remainder operation (missing from
src/) behaves as the JS % operator on doubles: the remainder after division
truncated toward zero, carrying the sign of the dividend. -/
def jsRem (x d : ℚ) : ℚ := x - d * ratTrunc (x / d)

/-- Modelled from the spec: the Calculator.lockOnAngle utility (missing from
src/).  Per the pole-locking protocol of the spec it snaps values within the
ULP-scale epsilon of the mathematically significant poles 0, pi, -pi, 2pi
and -2pi to those exact values, and leaves every other value unchanged. -/
def lockOnAngle (v : ℚ) : ℚ :=
  if |v| ≤ epsQ then 0
  else if |v - piQ| ≤ epsQ then piQ
  else if |v + piQ| ≤ epsQ then -piQ
  else if |v - twoPiQ| ≤ epsQ then twoPiQ
  else if |v + twoPiQ| ≤ epsQ then -twoPiQ
  else v

/-- The range-normalization block of the Angle constructor, Angle.js lines
75-85: reduce into (-2pi..2pi) by the remainder when outside [-2pi, 2pi],
then shift by 2pi into (-pi..pi].  The final -0 correction of line 85 is
the identity in the rational model, where -0 and 0 coincide. -/
def angleRangeNormalize (v : ℚ) : ℚ :=
  let w := if v < -twoPiQ ∨ twoPiQ < v then jsRem v twoPiQ else v
  if piQ < w then w - twoPiQ else if w ≤ -piQ then w + twoPiQ else w

/-- The value stored by the Angle constructor for a finite input (Angle.js
lines 50-90): optional degrees-to-radians conversion, lockOnAngle, then
range normalization.  Non-finite inputs throw before this point and are
outside the rational model. -/
def angleCtorValue (value : ℚ) (degrees : Bool) : ℚ :=
  angleRangeNormalize (lockOnAngle (if degrees then value * piQ / 180 else value))

theorem piQ_pos : (0:ℚ) < piQ := by norm_num [piQ]

theorem twoPiQ_eq : twoPiQ = 2 * piQ := by unfold twoPiQ; ring

/-- The JS remainder lies strictly between -d and d for a positive divisor d. -/
theorem jsRem_bounds (x d : ℚ) (hd : 0 < d) : -d < jsRem x d ∧ jsRem x d < d := by
  unfold jsRem ratTrunc
  by_cases h : 0 ≤ x / d
  · rw [if_pos h]
    have h1 : ((⌊x / d⌋ : ℤ) : ℚ) ≤ x / d := Int.floor_le _
    have h2 : x / d < (⌊x / d⌋ : ℤ) + 1 := Int.lt_floor_add_one _
    have e1 : d * ((⌊x / d⌋ : ℤ) : ℚ) ≤ x := by
      have := mul_le_mul_of_nonneg_left h1 hd.le
      rw [mul_comm d (x / d), div_mul_cancel₀ x (ne_of_gt hd)] at this
      exact this
    have e2 : x < d * ((⌊x / d⌋ : ℤ) : ℚ) + d := by
      have := mul_lt_mul_of_pos_left h2 hd
      rw [mul_comm d (x / d), div_mul_cancel₀ x (ne_of_gt hd)] at this
      nlinarith
    constructor <;> linarith
  · rw [if_neg h]
    have h1 : x / d ≤ ((⌈x / d⌉ : ℤ) : ℚ) := Int.le_ceil _
    have h2 : ((⌈x / d⌉ : ℤ) : ℚ) < x / d + 1 := Int.ceil_lt_add_one _
    have e1 : x ≤ d * ((⌈x / d⌉ : ℤ) : ℚ) := by
      have := mul_le_mul_of_nonneg_left h1 hd.le
      rw [mul_comm d (x / d), div_mul_cancel₀ x (ne_of_gt hd)] at this
      exact this
    have e2 : d * ((⌈x / d⌉ : ℤ) : ℚ) < x + d := by
      have := mul_lt_mul_of_pos_left h2 hd
      rw [mul_add, mul_one, mul_comm d (x / d),
        div_mul_cancel₀ x (ne_of_gt hd)] at this
      linarith
    constructor <;> linarith

/-- The range normalization always lands in (-pi, pi]. -/
theorem angleRangeNormalize_mem (v : ℚ) :
    -piQ < angleRangeNormalize v ∧ angleRangeNormalize v ≤ piQ := by
  have hpi := piQ_pos
  have h2 := twoPiQ_eq
  unfold angleRangeNormalize
  set w := if v < -twoPiQ ∨ twoPiQ < v then jsRem v twoPiQ else v with hw
  have hb : -twoPiQ ≤ w ∧ w ≤ twoPiQ := by
    by_cases hcase : v < -twoPiQ ∨ twoPiQ < v
    · rw [hw, if_pos hcase]
      have := jsRem_bounds v twoPiQ (by rw [h2]; linarith)
      exact ⟨this.1.le, this.2.le⟩
    · rw [hw, if_neg hcase]
      push_neg at hcase
      exact ⟨hcase.1, hcase.2⟩
  rw [h2] at hb
  by_cases hgt : piQ < w
  · rw [if_pos hgt]
    constructor <;> linarith [hb.1, hb.2]
  · rw [if_neg hgt]
    by_cases hle : w ≤ -piQ
    · rw [if_pos hle]
      constructor <;> linarith [hb.1, hb.2]
    · rw [if_neg hle]
      push_neg at hgt hle
      exact ⟨hle, hgt⟩

theorem lockOnAngle_neg_pi : lockOnAngle (-piQ) = -piQ := by
  unfold lockOnAngle
  have c1 : ¬ (|(-piQ : ℚ)| ≤ epsQ) := by
    rw [abs_neg, abs_of_pos piQ_pos]; norm_num [piQ, epsQ]
  have c2 : ¬ (|(-piQ : ℚ) - piQ| ≤ epsQ) := by
    rw [show (-piQ - piQ : ℚ) = -(2 * piQ) by ring, abs_neg,
      abs_of_pos (by linarith [piQ_pos])]
    norm_num [piQ, epsQ]
  have c3 : |(-piQ : ℚ) + piQ| ≤ epsQ := by
    rw [show (-piQ + piQ : ℚ) = 0 by ring, abs_zero]
    exact epsQ_pos.le
  rw [if_neg c1, if_neg c2, if_pos c3]

theorem lockOnAngle_pi : lockOnAngle piQ = piQ := by
  unfold lockOnAngle
  have c1 : ¬ (|(piQ : ℚ)| ≤ epsQ) := by
    rw [abs_of_pos piQ_pos]; norm_num [piQ, epsQ]
  have c2 : |(piQ : ℚ) - piQ| ≤ epsQ := by
    rw [sub_self, abs_zero]; exact epsQ_pos.le
  rw [if_neg c1, if_pos c2]

theorem lockOnAngle_three_pi : lockOnAngle (3 * piQ) = 3 * piQ := by
  unfold lockOnAngle
  have hpi := piQ_pos
  have c1 : ¬ (|(3 * piQ : ℚ)| ≤ epsQ) := by
    rw [abs_of_pos (by linarith)]; norm_num [piQ, epsQ]
  have c2 : ¬ (|(3 * piQ : ℚ) - piQ| ≤ epsQ) := by
    rw [show (3 * piQ - piQ : ℚ) = 2 * piQ by ring, abs_of_pos (by linarith)]
    norm_num [piQ, epsQ]
  have c3 : ¬ (|(3 * piQ : ℚ) + piQ| ≤ epsQ) := by
    rw [show (3 * piQ + piQ : ℚ) = 4 * piQ by ring, abs_of_pos (by linarith)]
    norm_num [piQ, epsQ]
  have c4 : ¬ (|(3 * piQ : ℚ) - twoPiQ| ≤ epsQ) := by
    rw [twoPiQ_eq, show (3 * piQ - 2 * piQ : ℚ) = piQ by ring, abs_of_pos hpi]
    norm_num [piQ, epsQ]
  have c5 : ¬ (|(3 * piQ : ℚ) + twoPiQ| ≤ epsQ) := by
    rw [twoPiQ_eq, show (3 * piQ + 2 * piQ : ℚ) = 5 * piQ by ring,
      abs_of_pos (by linarith)]
    norm_num [piQ, epsQ]
  rw [if_neg c1, if_neg c2, if_neg c3, if_neg c4, if_neg c5]

theorem angleRangeNormalize_neg_pi : angleRangeNormalize (-piQ) = piQ := by
  have hpi := piQ_pos
  have h2 := twoPiQ_eq
  have hc1 : ¬ ((-piQ : ℚ) < -twoPiQ ∨ twoPiQ < -piQ) := by
    rintro (h | h) <;> rw [h2] at h <;> linarith
  have hc2 : ¬ (piQ < -piQ) := by intro h; linarith
  have hc3 : (-piQ : ℚ) ≤ -piQ := le_refl _
  simp only [angleRangeNormalize]
  rw [if_neg hc1, if_neg hc2, if_pos hc3, h2]
  ring

theorem angleRangeNormalize_pi : angleRangeNormalize piQ = piQ := by
  have hpi := piQ_pos
  have h2 := twoPiQ_eq
  have hc1 : ¬ ((piQ : ℚ) < -twoPiQ ∨ twoPiQ < piQ) := by
    rintro (h | h) <;> rw [h2] at h <;> linarith
  have hc2 : ¬ (piQ < piQ) := lt_irrefl _
  have hc3 : ¬ ((piQ : ℚ) ≤ -piQ) := by intro h; linarith
  simp only [angleRangeNormalize]
  rw [if_neg hc1, if_neg hc2, if_neg hc3]

theorem angleRangeNormalize_three_pi : angleRangeNormalize (3 * piQ) = piQ := by
  have hpi := piQ_pos
  have h2 := twoPiQ_eq
  have hne : piQ ≠ 0 := ne_of_gt hpi
  have hdiv : (3 * piQ) / twoPiQ = 3 / 2 := by
    rw [twoPiQ_eq, show (2 * piQ : ℚ) = piQ * 2 by ring,
      show (3 * piQ : ℚ) = piQ * 3 by ring, mul_div_mul_left 3 2 hne]
  have hfloor : ratTrunc ((3 : ℚ) / 2) = 1 := by
    unfold ratTrunc
    rw [if_pos (by norm_num)]
    norm_num
  have hrem : jsRem (3 * piQ) twoPiQ = piQ := by
    unfold jsRem
    rw [hdiv, hfloor, twoPiQ_eq]
    push_cast
    ring
  have hc1 : (3 * piQ : ℚ) < -twoPiQ ∨ twoPiQ < 3 * piQ := by
    right; rw [h2]; linarith
  have hc2 : ¬ (piQ < piQ) := lt_irrefl _
  have hc3 : ¬ ((piQ : ℚ) ≤ -piQ) := by intro h; linarith
  simp only [angleRangeNormalize]
  rw [if_pos hc1, hrem, if_neg hc2, if_neg hc3]

/-! ## The generic Comparator (src/unnamed/part_004 lines 7266-7340)

compareComponents dispatches on the JS shapes of its two arguments.  The
universe of values exercised by the claims -- raw JS numbers and iterable
collections of such values -- is modelled by the mutual inductive type
Value/ValueList.  A raw number has no toBoolean, toNumber, getType or
getIterator attribute, so for two numbers only the typeof-number branch can
fire after the presence checks; a collection is an always-truthy object
exposing getIterator, so for two collections the composite branch fires;
for a number paired with a collection every branch guard fails until line
7311 evaluates first.getType() on a raw value and throws a TypeError,
modelled as the thrown outcome. -/

mutual
inductive Value where
  | numV (n : JSNum)
  | listV (items : ValueList)
inductive ValueList where
  | vnil
  | vcons (head : Value) (tail : ValueList)
end

/-- JS truthiness of a modelled value: numbers by jsTruthy, objects truthy. -/
def truthyValue : Value → Bool
  | .numV n => jsTruthy n
  | .listV _ => true

mutual
/-- Comparator.prototype.compareComponents (part_004 lines 7266-7340):
presence checks first (JS falsiness: undefined, 0 and NaN are falsy), then
the typeof-number branch with its toString pre-check, then the composite
iterator branch; a number paired with a collection reaches line 7311 and
throws. -/
def compareComponents : Value → Value → JSOutcome JSNum
  | first, second =>
    if truthyValue first && !(truthyValue second) then .value (.fin 1)
    else if !(truthyValue first) && truthyValue second then .value (.fin (-1))
    else if !(truthyValue first) && !(truthyValue second) then .value (.fin 0)
    else
      match first, second with
      | .numV a, .numV b =>
        if strEqNum a b then .value (.fin 0) else .value (mathSign (jsSub a b))
      | .listV xs, .listV ys => compareLists xs ys
      | .numV _, .listV _ => .thrown
      | .listV _, .numV _ => .thrown

/-- The composite branch of compareComponents: pairwise comparison in
iteration order while the running result is 0; a non-zero result is
returned; when one side is exhausted the longer side is greater. -/
def compareLists : ValueList → ValueList → JSOutcome JSNum
  | .vnil, .vnil => .value (.fin 0)
  | .vnil, .vcons _ _ => .value (.fin (-1))
  | .vcons _ _, .vnil => .value (.fin 1)
  | .vcons x xs, .vcons y ys =>
    match compareComponents x y with
    | .thrown => .thrown
    | .value r => if r = .fin 0 then compareLists xs ys else .value r
end

/-- The number of items of a modelled collection. -/
def lengthVL : ValueList → ℕ
  | .vnil => 0
  | .vcons _ t => lengthVL t + 1

/-- All pairs up to the shorter length compare equal. -/
def sharedEqual : ValueList → ValueList → Bool
  | .vnil, _ => true
  | .vcons _ _, .vnil => true
  | .vcons x xs, .vcons y ys =>
    decide (compareComponents x y = .value (.fin 0)) && sharedEqual xs ys

/-- Reduction of compareComponents on two numbers. -/
theorem compareComponents_numV (a b : JSNum) :
    compareComponents (.numV a) (.numV b) =
      if jsTruthy a && !(jsTruthy b) then .value (.fin 1)
      else if !(jsTruthy a) && jsTruthy b then .value (.fin (-1))
      else if !(jsTruthy a) && !(jsTruthy b) then .value (.fin 0)
      else if strEqNum a b then .value (.fin 0)
      else .value (mathSign (jsSub a b)) := by
  rw [compareComponents]
  simp only [truthyValue]

/-- Reduction of compareComponents on two collections: both sides are
truthy objects, so the composite branch always fires. -/
theorem compareComponents_listV (xs ys : ValueList) :
    compareComponents (.listV xs) (.listV ys) = compareLists xs ys := by
  rw [compareComponents]
  simp [truthyValue]

theorem compareLists_cons_zero (x y : Value) (xs ys : ValueList)
    (h : compareComponents x y = .value (.fin 0)) :
    compareLists (.vcons x xs) (.vcons y ys) = compareLists xs ys := by
  rw [compareLists, h]
  simp

theorem compareLists_cons_of_ne (x y : Value) (xs ys : ValueList) (r : JSNum)
    (h : compareComponents x y = .value r) (hr : r ≠ .fin 0) :
    compareLists (.vcons x xs) (.vcons y ys) = .value r := by
  rw [compareLists, h]
  simp [hr]

/-- When all shared-length pairs compare equal, the pairwise loop decides by
length alone: the shorter sequence sorts first. -/
theorem sharedEqual_compareLists :
    ∀ (n : ℕ) (xs ys : ValueList), lengthVL xs ≤ n → sharedEqual xs ys = true →
      compareLists xs ys =
        .value (if lengthVL xs < lengthVL ys then .fin (-1)
          else if lengthVL ys < lengthVL xs then .fin 1 else .fin 0) := by
  intro n
  induction n with
  | zero =>
    intro xs ys hlen hsh
    cases xs with
    | vnil =>
      cases ys with
      | vnil => simp [compareLists, lengthVL]
      | vcons y ys => simp [compareLists, lengthVL]
    | vcons x xs => simp [lengthVL] at hlen
  | succ n ih =>
    intro xs ys hlen hsh
    cases xs with
    | vnil =>
      cases ys with
      | vnil => simp [compareLists, lengthVL]
      | vcons y ys => simp [compareLists, lengthVL]
    | vcons x xs =>
      cases ys with
      | vnil => simp [compareLists, lengthVL]
      | vcons y ys =>
        rw [sharedEqual, Bool.and_eq_true, decide_eq_true_eq] at hsh
        rw [compareLists_cons_zero x y xs ys hsh.1]
        rw [ih xs ys (by simp [lengthVL] at hlen; omega) hsh.2]
        simp only [lengthVL, Nat.add_lt_add_iff_right]

/-- The collection List[1,2] of the spec scenario. -/
def listOneTwo : ValueList :=
  .vcons (.numV (.fin 1)) (.vcons (.numV (.fin 2)) .vnil)

/-- The collection List[1,2,3] of the spec scenario. -/
def listOneTwoThree : ValueList :=
  .vcons (.numV (.fin 1)) (.vcons (.numV (.fin 2)) (.vcons (.numV (.fin 3)) .vnil))

theorem compare_one_one : compareComponents (.numV (.fin 1)) (.numV (.fin 1))
    = .value (.fin 0) := by
  rw [compareComponents_numV]
  norm_num [jsTruthy, strEqNum]

theorem compare_two_two : compareComponents (.numV (.fin 2)) (.numV (.fin 2))
    = .value (.fin 0) := by
  rw [compareComponents_numV]
  norm_num [jsTruthy, strEqNum]

theorem sharedEqual_concrete : sharedEqual listOneTwo listOneTwoThree = true
    ∧ sharedEqual listOneTwoThree listOneTwo = true := by
  constructor <;>
    simp [listOneTwo, listOneTwoThree, sharedEqual, compare_one_one, compare_two_two]

/-- C3: for two composite components that both expose an iterator, the
comparison is pairwise in iteration order; the first non-zero pairwise
result decides; when all shared-length pairs are equal the shorter sequence
sorts first; in particular compare(List[1,2], List[1,2,3]) is -1 and
compare(List[1,2,3], List[1,2]) is 1. -/
theorem compare_composite_spec :
    (∀ (x y : Value) (xs ys : ValueList) (r : JSNum),
      compareComponents x y = .value r → r ≠ .fin 0 →
      compareComponents (.listV (.vcons x xs)) (.listV (.vcons y ys)) = .value r)
    ∧ (∀ (x y : Value) (xs ys : ValueList),
      compareComponents x y = .value (.fin 0) →
      compareComponents (.listV (.vcons x xs)) (.listV (.vcons y ys))
        = compareComponents (.listV xs) (.listV ys))
    ∧ (∀ xs ys : ValueList, sharedEqual xs ys = true →
      compareComponents (.listV xs) (.listV ys) =
        .value (if lengthVL xs < lengthVL ys then .fin (-1)
          else if lengthVL ys < lengthVL xs then .fin 1 else .fin 0))
    ∧ compareComponents (.listV listOneTwo) (.listV listOneTwoThree)
        = .value (.fin (-1))
    ∧ compareComponents (.listV listOneTwoThree) (.listV listOneTwo)
        = .value (.fin 1) := by
  have key : ∀ xs ys : ValueList, sharedEqual xs ys = true →
      compareComponents (.listV xs) (.listV ys) =
        .value (if lengthVL xs < lengthVL ys then .fin (-1)
          else if lengthVL ys < lengthVL xs then .fin 1 else .fin 0) := by
    intro xs ys hsh
    rw [compareComponents_listV]
    exact sharedEqual_compareLists (lengthVL xs) xs ys le_rfl hsh
  refine ⟨?_, ?_, key, ?_, ?_⟩
  · intro x y xs ys r h hr
    rw [compareComponents_listV]
    exact compareLists_cons_of_ne x y xs ys r h hr
  · intro x y xs ys h
    rw [compareComponents_listV, compareComponents_listV]
    exact compareLists_cons_zero x y xs ys h
  · rw [key listOneTwo listOneTwoThree sharedEqual_concrete.1]
    simp [listOneTwo, listOneTwoThree, lengthVL]
  · rw [key listOneTwoThree listOneTwo sharedEqual_concrete.2]
    simp [listOneTwo, listOneTwoThree, lengthVL]

/-- Witness for C3: the first non-zero pairwise result 1 (from comparing 2
with 1 at the heads) decides for singleton collections, and the prefix rule
applied to List[1,2] against itself yields 0. -/
theorem compare_composite_spec_witness :
    compareComponents (.listV (.vcons (.numV (.fin 2)) .vnil))
        (.listV (.vcons (.numV (.fin 1)) .vnil)) = .value (.fin 1)
    ∧ compareComponents (.listV listOneTwo) (.listV listOneTwo)
        = .value (.fin 0) := by
  constructor
  · exact compare_composite_spec.1 (.numV (.fin 2)) (.numV (.fin 1)) .vnil .vnil
      (.fin 1) (by rw [compareComponents_numV]; norm_num [jsTruthy, strEqNum, jsSub, mathSign])
      (by norm_num)
  · have h := compare_composite_spec.2.2.1 listOneTwo listOneTwo
      (by simp [listOneTwo, sharedEqual, compare_one_one, compare_two_two])
    simpa using h

/-- C2 counterexample: the numbers 0 and NaN have different stringified
forms and the numeric sign of their difference is NaN, yet the Comparator
returns 0 for them: both are falsy in JS, so the presence check of lines
7268-7276 intercepts the pair before the numeric branch is reached. -/
theorem compare_zero_nan_counterexample :
    compareComponents (.numV (.fin 0)) (.numV .nan) = .value (.fin 0)
    ∧ strEqNum (.fin 0) .nan = false
    ∧ mathSign (jsSub (.fin 0) .nan) = .nan := by
  refine ⟨?_, rfl, rfl⟩
  rw [compareComponents_numV]
  norm_num [jsTruthy]

/-- C2 (amended): for two truthy numbers (nonzero, non-NaN) the Comparator
returns 0 when the stringified forms are equal (two Infinities of the same
sign) and the numeric sign of the difference otherwise, which for finite
nonzero numbers is exactly the sign of the exact difference; falsy numbers
(0 and NaN) are intercepted by the presence check, which returns 0 when
both operands are falsy (so two NaNs still compare equal) and treats a
falsy operand as less than any truthy one. -/
theorem compare_numeric_spec :
    (∀ a b : JSNum, jsTruthy a = true → jsTruthy b = true →
      compareComponents (.numV a) (.numV b) =
        .value (if strEqNum a b then .fin 0 else mathSign (jsSub a b)))
    ∧ (∀ a b : JSNum, jsTruthy a = false → jsTruthy b = false →
      compareComponents (.numV a) (.numV b) = .value (.fin 0))
    ∧ (∀ a b : JSNum, jsTruthy a = true → jsTruthy b = false →
      compareComponents (.numV a) (.numV b) = .value (.fin 1))
    ∧ (∀ a b : JSNum, jsTruthy a = false → jsTruthy b = true →
      compareComponents (.numV a) (.numV b) = .value (.fin (-1)))
    ∧ compareComponents (.numV .nan) (.numV .nan) = .value (.fin 0)
    ∧ compareComponents (.numV .posInf) (.numV .posInf) = .value (.fin 0)
    ∧ (∀ x y : ℚ, x ≠ 0 → y ≠ 0 →
      compareComponents (.numV (.fin x)) (.numV (.fin y))
        = .value (mathSign (.fin (x - y)))) := by
  refine ⟨?_, ?_, ?_, ?_, ?_, ?_, ?_⟩
  · intro a b ha hb
    rw [compareComponents_numV, ha, hb]
    simp only [Bool.not_true, Bool.and_false, Bool.false_and, if_false,
      Bool.and_true]
    cases hs : strEqNum a b <;> simp [hs]
  · intro a b ha hb
    rw [compareComponents_numV, ha, hb]
    simp
  · intro a b ha hb
    rw [compareComponents_numV, ha, hb]
    simp
  · intro a b ha hb
    rw [compareComponents_numV, ha, hb]
    simp
  · rw [compareComponents_numV]
    norm_num [jsTruthy, strEqNum]
  · rw [compareComponents_numV]
    norm_num [jsTruthy, strEqNum]
  · intro x y hx hy
    have ha : jsTruthy (.fin x) = true := by simp [jsTruthy, hx]
    have hb : jsTruthy (.fin y) = true := by simp [jsTruthy, hy]
    rw [compareComponents_numV, ha, hb]
    by_cases hxy : x = y
    · subst hxy
      simp [strEqNum, mathSign]
    · have hs : strEqNum (.fin x) (.fin y) = false := by
        simp [strEqNum, hxy]
      simp [hs, jsSub]

/-- Witness for C2: 2 and 1 are truthy and compare to the sign of 2 - 1,
namely 1; 0 and NaN are both falsy and compare equal through the presence
check; NaN is falsy and 5 truthy, so NaN sorts first; 3 against 5 gives
the sign of 3 - 5, namely -1. -/
theorem compare_numeric_spec_witness :
    compareComponents (.numV (.fin 2)) (.numV (.fin 1))
      = .value (if strEqNum (.fin 2) (.fin 1) then .fin 0
          else mathSign (jsSub (.fin 2) (.fin 1)))
    ∧ compareComponents (.numV (.fin 0)) (.numV .nan) = .value (.fin 0)
    ∧ compareComponents (.numV (.fin 5)) (.numV .nan) = .value (.fin 1)
    ∧ compareComponents (.numV .nan) (.numV (.fin 5)) = .value (.fin (-1))
    ∧ compareComponents (.numV (.fin 3)) (.numV (.fin 5))
      = .value (mathSign (.fin (3 - 5))) := by
  refine ⟨?_, ?_, ?_, ?_, ?_⟩
  · exact compare_numeric_spec.1 (.fin 2) (.fin 1)
      (by norm_num [jsTruthy]) (by norm_num [jsTruthy])
  · exact compare_numeric_spec.2.1 (.fin 0) .nan
      (by norm_num [jsTruthy]) (by norm_num [jsTruthy])
  · exact compare_numeric_spec.2.2.1 (.fin 5) .nan
      (by norm_num [jsTruthy]) (by norm_num [jsTruthy])
  · exact compare_numeric_spec.2.2.2.1 .nan (.fin 5)
      (by norm_num [jsTruthy]) (by norm_num [jsTruthy])
  · exact compare_numeric_spec.2.2.2.2.2.2 3 5 (by norm_num) (by norm_num)

/-- C5: for every finite real input, with or without the degrees units
parameter, the value stored by the Angle constructor lies in the half-open
interval (-pi, pi]; an input of exactly -pi is rewritten to pi; and
Angle(3 pi) stores the same value as Angle(pi), namely pi.  The -0
correction of line 85 is the identity in the rational model, where -0 and 0
coincide. -/
theorem angle_normalization :
    (∀ (value : ℚ) (degrees : Bool),
      -piQ < angleCtorValue value degrees ∧ angleCtorValue value degrees ≤ piQ)
    ∧ angleCtorValue (-piQ) false = piQ
    ∧ angleCtorValue (3 * piQ) false = angleCtorValue piQ false
    ∧ angleCtorValue piQ false = piQ := by
  have hpi : angleCtorValue piQ false = piQ := by
    simp only [angleCtorValue, Bool.false_eq_true, if_false]
    rw [lockOnAngle_pi, angleRangeNormalize_pi]
  refine ⟨?_, ?_, ?_, hpi⟩
  · intro value degrees
    exact angleRangeNormalize_mem _
  · simp only [angleCtorValue, Bool.false_eq_true, if_false]
    rw [lockOnAngle_neg_pi, angleRangeNormalize_neg_pi]
  · rw [hpi]
    simp only [angleCtorValue, Bool.false_eq_true, if_false]
    rw [lockOnAngle_three_pi, angleRangeNormalize_three_pi]

/-! ## The merge sorter (src/unnamed/part_000 lines 160-238)

MergeSorter.sortArray returns the JS value undefined (modelled as none)
when the array has fewer than two elements, and otherwise the merge of the
recursively sorted halves.  mergeArrays dereferences left.length and
right.length (or right.slice), which throws a TypeError when the
corresponding half is the undefined returned by a recursive call on a short
half.  The comparison function Composite.compareItems is not under src/ and
is irrelevant to the control flow proved here; it is taken as a parameter
returning a JS number in {-1, 0, 1} for mutually comparable items. -/

/-- The merge loop of MergeSorter.mergeArrays (lines 212-238) on two actual
arrays: the comparison result -1 advances the left cursor, 0 and 1 advance
the right cursor; any other comparison value matches no case of the switch
and the loop never terminates, modelled as a thrown outcome. -/
def mergePure (cmp : α → α → ℤ) : List α → List α → JSOutcome (List α)
  | [], r => .value r
  | x :: xs, [] => .value (x :: xs)
  | x :: xs, y :: ys =>
    if cmp x y = -1 then
      match mergePure cmp xs (y :: ys) with
      | .thrown => .thrown
      | .value res => .value (x :: res)
    else if cmp x y = 0 ∨ cmp x y = 1 then
      match mergePure cmp (x :: xs) ys with
      | .thrown => .thrown
      | .value res => .value (y :: res)
    else .thrown
termination_by l r => l.length + r.length

/-- MergeSorter.mergeArrays applied to the results of the recursive
sortArray calls, which are JS values that may be undefined (none): reading
left.length throws when left is undefined; when left is an array and right
is undefined, either the loop guard reads right.length (left nonempty) or
the tail copy calls right.slice (left empty), and both throw. -/
def mergeArraysJS (cmp : α → α → ℤ) :
    Option (List α) → Option (List α) → JSOutcome (List α)
  | none, _ => .thrown
  | some _, none => .thrown
  | some l, some r => mergePure cmp l r

/-- MergeSorter.sortArray (lines 192-209): returns undefined (none) for
arrays of fewer than two elements -- the `return;` of line 195 -- and
otherwise splits at floor(length / 2), sorts both halves recursively and
merges them. -/
def sortArrayJS (cmp : α → α → ℤ) (l : List α) : JSOutcome (Option (List α)) :=
  if l.length < 2 then .value none
  else
    match sortArrayJS cmp (l.take (l.length / 2)) with
    | .thrown => .thrown
    | .value lres =>
      match sortArrayJS cmp (l.drop (l.length / 2)) with
      | .thrown => .thrown
      | .value rres =>
        match mergeArraysJS cmp lres rres with
        | .thrown => .thrown
        | .value merged => .value (some merged)
termination_by l.length
decreasing_by
  · simp only [List.length_take]
    omega
  · simp only [List.length_drop]
    omega

/-- MergeSorter.sortCollection (lines 172-189), with the collection state as
a list of items: collections of size at most one are untouched; otherwise
the items are drained, sortArray is run (an exception propagates), and the
result is reloaded via removeAll and addItems -- where addItems on the
undefined value produced by sortArray for short arrays would also throw.
List.prototype.sortItems delegates to this with the natural comparator. -/
def sortCollectionJS (cmp : α → α → ℤ) (l : List α) : JSOutcome (List α) :=
  if 1 < l.length then
    match sortArrayJS cmp l with
    | .thrown => .thrown
    | .value none => .thrown
    | .value (some arr) => .value arr
  else .value l

theorem sortArrayJS_small (cmp : α → α → ℤ) (l : List α) (h : l.length < 2) :
    sortArrayJS cmp l = .value none := by
  rw [sortArrayJS, if_pos h]

/-- sortArray throws for every array of two or more elements: its recursion
bottoms out at halves of fewer than two elements, which come back as
undefined and make mergeArrays throw. -/
theorem sortArrayJS_throws (cmp : α → α → ℤ) :
    ∀ (n : ℕ) (l : List α), l.length ≤ n → 2 ≤ l.length →
      sortArrayJS cmp l = .thrown := by
  intro n
  induction n with
  | zero =>
    intro l hn h2
    omega
  | succ n ih =>
    intro l hn h2
    rw [sortArrayJS, if_neg (by omega)]
    have hlen2 : (l.take (l.length / 2)).length = l.length / 2 := by
      simp only [List.length_take]
      omega
    have hlen3 : (l.drop (l.length / 2)).length = l.length - l.length / 2 := by
      simp only [List.length_drop]
    by_cases hleft : 2 ≤ l.length / 2
    · rw [ih (l.take (l.length / 2)) (by omega) (by omega)]
    · have hL : sortArrayJS cmp (l.take (l.length / 2)) = .value none :=
        sortArrayJS_small cmp _ (by omega)
      rw [hL]
      by_cases hright : 2 ≤ l.length - l.length / 2
      · rw [ih (l.drop (l.length / 2)) (by omega) (by omega)]
      · have hR : sortArrayJS cmp (l.drop (l.length / 2)) = .value none :=
          sortArrayJS_small cmp _ (by omega)
        rw [hR]
        rfl

/-- C1 (code bug): sorting is claimed to order the items, but sortItems
throws a TypeError for every collection of two or more items, because
sortArray returns undefined for arrays of fewer than two elements and
mergeArrays then dereferences undefined; collections of at most one item
are left unchanged, so no collection is ever reordered. -/
theorem sortItems_throws {α : Type} (cmp : α → α → ℤ) (l : List α)
    (h : 2 ≤ l.length) : sortCollectionJS cmp l = .thrown := by
  unfold sortCollectionJS
  rw [if_pos (by omega), sortArrayJS_throws cmp l.length l le_rfl h]

/-- Witness for C1: sorting the two-element list [2, 1] with the natural
integer comparator throws. -/
theorem sortItems_throws_witness :
    2 ≤ ([2, 1] : List ℤ).length
    ∧ sortCollectionJS (fun a b => if a < b then -1 else if b < a then 1 else 0)
        ([2, 1] : List ℤ) = .thrown :=
  ⟨by decide,
    sortItems_throws (fun a b => if a < b then -1 else if b < a then 1 else 0)
      ([2, 1] : List ℤ) (by decide)⟩

/-! ## removeItems (src/unnamed/part_000 lines 126-136, together with
List.prototype.removeItem from src/src/collections/List.js lines 184-192) -/

/-- Modelled from the spec: the normalizedIndex method of the Composite
abstraction is not under src/; per the spec index normalization supports
negative ordinal wraparound, so a negative index wraps from the end of the
sequence (index + size + 1) and any other index is used as given (the spec
states that removals that fail because the item is not found are skipped
rather than erroring, so out-of-range reads yield undefined rather than
throwing). -/
def normalizedIndexSpec (size : ℕ) (index : ℤ) : ℤ :=
  if index < 0 then index + size + 1 else index

/-- List.prototype.removeItem (List.js lines 184-192): normalize the index,
convert it to zero-based, read the item (undefined when out of range),
splice it out only when the item read is truthy, and return it. -/
def listRemoveItem (l : List JSNum) (index : ℤ) : Option JSNum × List JSNum :=
  let i : ℤ := normalizedIndexSpec l.length index - 1
  let oldItem : Option JSNum := if 0 ≤ i then l.get? i.toNat else none
  match oldItem with
  | some v => if jsTruthy v then (some v, l.eraseIdx i.toNat) else (some v, l)
  | none => (none, l)

/-- The while loop of SortableCollection.prototype.removeItems (part_000
lines 130-134), with explicit fuel equal to the number of iterations: each
index up to lastIndex is removed from the current list state and, when the
removal produced a truthy item, the item is appended to the removed
collection. -/
def removeItemsLoop (fuel : ℕ) (l acc : List JSNum) (index lastIndex : ℤ) :
    List JSNum × List JSNum :=
  match fuel with
  | 0 => (acc, l)
  | fuel + 1 =>
    if index ≤ lastIndex then
      match listRemoveItem l index with
      | (some v, l2) =>
        removeItemsLoop fuel l2 (if jsTruthy v then acc ++ [v] else acc)
          (index + 1) lastIndex
      | (none, l2) => removeItemsLoop fuel l2 acc (index + 1) lastIndex
    else (acc, l)

/-- SortableCollection.prototype.removeItems (part_000 lines 126-136):
normalizes both indices against the size at call time, then removes the
items of the index range one at a time, collecting removed items in order
into a freshly constructed empty collection of the same type and skipping
failed removals.  The fuel lastIndex - firstIndex + 1 is exactly the number
of iterations of the while loop, which increments index once per pass.
Returns the removed collection and the remaining collection state. -/
def removeItemsJS (l : List JSNum) (firstIndex lastIndex : ℤ) :
    List JSNum × List JSNum :=
  removeItemsLoop
    (normalizedIndexSpec l.length lastIndex + 1
      - normalizedIndexSpec l.length firstIndex).toNat
    l [] (normalizedIndexSpec l.length firstIndex)
    (normalizedIndexSpec l.length lastIndex)

/-- C4 (code bug): on List[1,2,3,4,5], removeItems(2,4) removes the item at
index 2 (the value 2), then the item at index 3 of the already shifted list
(the value 4); index 4 is then beyond the remaining three-item list, so
that removal fails and is skipped.  The call returns List[2,4] and leaves
the original as List[1,3,5], not the List[2,3,4] and List[1,5] the claim
states. -/
theorem removeItems_range_shifted :
    removeItemsJS [.fin 1, .fin 2, .fin 3, .fin 4, .fin 5] 2 4
      = ([.fin 2, .fin 4], [.fin 1, .fin 3, .fin 5]) := by
  decide

/-! ## Complex numbers (src/src/elements/Name.js lines 382-843)

A complex number state is its real and imaginary part after the constructor
normalization of lines 407-430.  precision.lockOnExtreme is not under src/;
it is the pole-locking protocol of the spec, embedded above as lockOnPole.
The polar branch (an Angle as imaginary argument) is not exercised by the
claims and is not modelled. -/

/-- JS negation. -/
def jsNeg : JSNum → JSNum
  | .nan => .nan
  | .posInf => .negInf
  | .negInf => .posInf
  | .fin q => .fin (-q)

/-- Modelled from the spec: precision.sum (missing from src/) is the shared
precision addition, modelled as exact JS addition on the number model. -/
def jsAdd : JSNum → JSNum → JSNum
  | .nan, _ => .nan
  | _, .nan => .nan
  | .posInf, .negInf => .nan
  | .negInf, .posInf => .nan
  | .posInf, _ => .posInf
  | _, .posInf => .posInf
  | .negInf, _ => .negInf
  | _, .negInf => .negInf
  | .fin x, .fin y => .fin (x + y)

/-- Modelled from the spec: precision.product (missing from src/) is the
shared precision multiplication, modelled as exact JS multiplication on the
number model (an infinity times zero is NaN). -/
def jsMul : JSNum → JSNum → JSNum
  | .nan, _ => .nan
  | _, .nan => .nan
  | .posInf, .posInf => .posInf
  | .posInf, .negInf => .negInf
  | .negInf, .posInf => .negInf
  | .negInf, .negInf => .posInf
  | .posInf, .fin y => if y = 0 then .nan else if 0 < y then .posInf else .negInf
  | .fin x, .posInf => if x = 0 then .nan else if 0 < x then .posInf else .negInf
  | .negInf, .fin y => if y = 0 then .nan else if 0 < y then .negInf else .posInf
  | .fin x, .negInf => if x = 0 then .nan else if 0 < x then .negInf else .posInf
  | .fin x, .fin y => .fin (x * y)

/-- The state of a constructed Complex element. -/
structure ComplexS where
  real : JSNum
  imaginary : JSNum
deriving DecidableEq, Repr

/-- The Complex constructor (Name.js lines 395-451, rectangular path): an
undefined part defaults to 0 while NaN passes through, both parts go
through lockOnExtreme, then lines 424-430: if either part stringifies to
NaN both parts become NaN, otherwise if either part is an infinity both
parts become Infinity. -/
def complexOfParts (realArg imagArg : Option JSNum) : ComplexS :=
  let r := lockOnPole (match realArg with | none => .fin 0 | some x => x)
  let i := lockOnPole (match imagArg with | none => .fin 0 | some x => x)
  if r = .nan ∨ i = .nan then ⟨.nan, .nan⟩
  else if r = .posInf ∨ r = .negInf ∨ i = .posInf ∨ i = .negInf then
    ⟨.posInf, .posInf⟩
  else ⟨r, i⟩

/-- isUndefined (Name.js lines 525-527): the real part stringifies to NaN. -/
def ComplexS.isUndefinedC (z : ComplexS) : Bool := z.real == .nan

/-- isZero (Name.js lines 535-537): both parts are exactly 0. -/
def ComplexS.isZeroC (z : ComplexS) : Bool :=
  z.real == .fin 0 && z.imaginary == .fin 0

/-- isInfinite (Name.js lines 545-547): the real part is Infinity. -/
def ComplexS.isInfiniteC (z : ComplexS) : Bool := z.real == .posInf

/-- Complex.inverse (Name.js lines 603-617): special cases first, then the
negation of both parts. -/
def complexInverse (z : ComplexS) : ComplexS :=
  if z.isUndefinedC then complexOfParts (some .nan) none
  else if z.isInfiniteC then complexOfParts (some .posInf) none
  else if z.isZeroC then complexOfParts (some (.fin 0)) none
  else complexOfParts (some (jsNeg z.real)) (some (jsNeg z.imaginary))

/-- Modelled from the spec: isEqualTo belongs to the missing Element
abstraction; per the spec equality of two elements of the same type is
value equality, here equality of the rendered parts (string equality, so
that two NaN parts are equal). -/
def complexIsEqual (x y : ComplexS) : Bool :=
  strEqNum x.real y.real && strEqNum x.imaginary y.imaginary

/-- Complex.sum (Name.js lines 713-730): any Undefined operand gives
Undefined, any Infinite operand gives Infinity, a pair of additive inverses
gives 0, and only then is the component-wise sum computed. -/
def complexSum (x y : ComplexS) : ComplexS :=
  if x.isUndefinedC || y.isUndefinedC then complexOfParts (some .nan) none
  else if x.isInfiniteC || y.isInfiniteC then complexOfParts (some .posInf) none
  else if complexIsEqual x (complexInverse y) then complexOfParts (some (.fin 0)) none
  else complexOfParts (some (jsAdd x.real y.real))
    (some (jsAdd x.imaginary y.imaginary))

/-- Complex.product (Name.js lines 801-820): any Undefined operand gives
Undefined, a Zero operand paired with an Infinite one (in either order)
gives Undefined, any remaining Infinite operand gives Infinity, any
remaining Zero operand gives 0, and only then is the rectangular product
computed (the stray single-argument precision.product of line 817 is
modelled as the identity on its already multiplied argument). -/
def complexProduct (x y : ComplexS) : ComplexS :=
  if x.isUndefinedC || y.isUndefinedC then complexOfParts (some .nan) none
  else if x.isZeroC && y.isInfiniteC then complexOfParts (some .nan) none
  else if x.isInfiniteC && y.isZeroC then complexOfParts (some .nan) none
  else if x.isInfiniteC || y.isInfiniteC then complexOfParts (some .posInf) none
  else if x.isZeroC || y.isZeroC then complexOfParts (some (.fin 0)) none
  else complexOfParts
    (some (jsSub (jsMul x.real y.real) (jsMul x.imaginary y.imaginary)))
    (some (jsAdd (jsMul x.real y.imaginary) (jsMul x.imaginary y.real)))

theorem lockOnPole_nan : lockOnPole .nan = .nan := rfl

theorem lockOnPole_posInf : lockOnPole .posInf = .posInf := rfl

theorem lockOnPole_zero : lockOnPole (.fin 0) = .fin 0 := by
  rw [lockOnPole_fin]
  norm_num

theorem complexOfParts_nan_none : complexOfParts (some .nan) none = ⟨.nan, .nan⟩ := by
  simp [complexOfParts, lockOnPole_nan, lockOnPole_zero]

theorem complexOfParts_inf_none :
    complexOfParts (some .posInf) none = ⟨.posInf, .posInf⟩ := by
  simp [complexOfParts, lockOnPole_posInf, lockOnPole_zero]

theorem complexOfParts_zero_none :
    complexOfParts (some (.fin 0)) none = ⟨.fin 0, .fin 0⟩ := by
  simp [complexOfParts, lockOnPole_zero]

theorem isInfiniteC_not_zero (x : ComplexS) (h : x.isInfiniteC = true) :
    x.isZeroC = false := by
  rw [ComplexS.isInfiniteC, beq_iff_eq] at h
  rw [ComplexS.isZeroC, h]
  rfl

theorem isInfiniteC_not_undefined (x : ComplexS) (h : x.isInfiniteC = true) :
    x.isUndefinedC = false := by
  rw [ComplexS.isInfiniteC, beq_iff_eq] at h
  rw [ComplexS.isUndefinedC, h]
  rfl

/-- C7: for the complex sum and product, an Undefined operand always yields
Undefined; an Infinite operand multiplied with a Zero operand (in either
order) yields Undefined; otherwise an Infinite operand absorbs under
addition and multiplication; and a Zero operand absorbs under
multiplication unless paired with Infinite.  Each fact is decided by the
special-state branches, which the code runs before any real computation. -/
theorem complex_special_states :
    (∀ x y : ComplexS, x.isUndefinedC = true ∨ y.isUndefinedC = true →
      (complexSum x y).isUndefinedC = true
      ∧ (complexProduct x y).isUndefinedC = true)
    ∧ (∀ x y : ComplexS, x.isUndefinedC = false → y.isUndefinedC = false →
      (x.isInfiniteC = true ∧ y.isZeroC = true)
        ∨ (x.isZeroC = true ∧ y.isInfiniteC = true) →
      (complexProduct x y).isUndefinedC = true)
    ∧ (∀ x y : ComplexS, x.isUndefinedC = false → y.isUndefinedC = false →
      x.isInfiniteC = true ∨ y.isInfiniteC = true →
      (complexSum x y).isInfiniteC = true)
    ∧ (∀ x y : ComplexS, x.isUndefinedC = false → y.isUndefinedC = false →
      x.isInfiniteC = true ∨ y.isInfiniteC = true →
      ¬(x.isInfiniteC = true ∧ y.isZeroC = true) →
      ¬(x.isZeroC = true ∧ y.isInfiniteC = true) →
      (complexProduct x y).isInfiniteC = true)
    ∧ (∀ x y : ComplexS, x.isUndefinedC = false → y.isUndefinedC = false →
      x.isInfiniteC = false → y.isInfiniteC = false →
      x.isZeroC = true ∨ y.isZeroC = true →
      (complexProduct x y).isZeroC = true) := by
  refine ⟨?_, ?_, ?_, ?_, ?_⟩
  · intro x y h
    have hu : (x.isUndefinedC || y.isUndefinedC) = true := by
      rcases h with h | h <;> simp [h]
    constructor
    · rw [complexSum, if_pos hu, complexOfParts_nan_none]
      rfl
    · rw [complexProduct, if_pos hu, complexOfParts_nan_none]
      rfl
  · intro x y hx hy h
    have hu : (x.isUndefinedC || y.isUndefinedC) = false := by simp [hx, hy]
    rcases h with ⟨hi, hz⟩ | ⟨hz, hi⟩
    · have h2 : (x.isZeroC && y.isInfiniteC) = false := by
        simp [isInfiniteC_not_zero x hi]
      have h3 : (x.isInfiniteC && y.isZeroC) = true := by simp [hi, hz]
      rw [complexProduct, if_neg (by simp [hu]), if_neg (by simp [h2]),
        if_pos h3, complexOfParts_nan_none]
      rfl
    · have h2 : (x.isZeroC && y.isInfiniteC) = true := by simp [hi, hz]
      rw [complexProduct, if_neg (by simp [hu]), if_pos h2,
        complexOfParts_nan_none]
      rfl
  · intro x y hx hy h
    have hu : (x.isUndefinedC || y.isUndefinedC) = false := by simp [hx, hy]
    have hi : (x.isInfiniteC || y.isInfiniteC) = true := by
      rcases h with h | h <;> simp [h]
    rw [complexSum, if_neg (by simp [hu]), if_pos hi, complexOfParts_inf_none]
    rfl
  · intro x y hx hy h hnz1 hnz2
    have hu : (x.isUndefinedC || y.isUndefinedC) = false := by simp [hx, hy]
    have hi : (x.isInfiniteC || y.isInfiniteC) = true := by
      rcases h with h | h <;> simp [h]
    have h2 : (x.isZeroC && y.isInfiniteC) = false := by
      cases hz : x.isZeroC
      · simp
      · cases hyi : y.isInfiniteC
        · simp
        · exact absurd ⟨hz, hyi⟩ hnz2
    have h3 : (x.isInfiniteC && y.isZeroC) = false := by
      cases hxi : x.isInfiniteC
      · simp
      · cases hyz : y.isZeroC
        · simp
        · exact absurd ⟨hxi, hyz⟩ hnz1
    rw [complexProduct, if_neg (by simp [hu]), if_neg (by simp [h2]),
      if_neg (by simp [h3]), if_pos hi, complexOfParts_inf_none]
    rfl
  · intro x y hx hy hxi hyi h
    have hu : (x.isUndefinedC || y.isUndefinedC) = false := by simp [hx, hy]
    have h2 : (x.isZeroC && y.isInfiniteC) = false := by simp [hyi]
    have h3 : (x.isInfiniteC && y.isZeroC) = false := by simp [hxi]
    have h4 : (x.isInfiniteC || y.isInfiniteC) = false := by simp [hxi, hyi]
    have h5 : (x.isZeroC || y.isZeroC) = true := by
      rcases h with h | h <;> simp [h]
    rw [complexProduct, if_neg (by simp [hu]), if_neg (by simp [h2]),
      if_neg (by simp [h3]), if_neg (by simp [h4]), if_pos h5,
      complexOfParts_zero_none]
    rfl

/-- Witness for C7 at the three canonical states NaN, Infinity and 0:
Undefined + 0 is Undefined, Infinity * 0 and 0 * Infinity are Undefined,
Infinity + 0 is Infinity, Infinity * Infinity is Infinity, and 0 * 0 is 0. -/
theorem complex_special_states_witness :
    (complexSum ⟨.nan, .nan⟩ ⟨.fin 0, .fin 0⟩).isUndefinedC = true
    ∧ (complexProduct ⟨.posInf, .posInf⟩ ⟨.fin 0, .fin 0⟩).isUndefinedC = true
    ∧ (complexProduct ⟨.fin 0, .fin 0⟩ ⟨.posInf, .posInf⟩).isUndefinedC = true
    ∧ (complexSum ⟨.posInf, .posInf⟩ ⟨.fin 0, .fin 0⟩).isInfiniteC = true
    ∧ (complexProduct ⟨.posInf, .posInf⟩ ⟨.posInf, .posInf⟩).isInfiniteC = true
    ∧ (complexProduct ⟨.fin 0, .fin 0⟩ ⟨.fin 0, .fin 0⟩).isZeroC = true := by
  refine ⟨?_, ?_, ?_, ?_, ?_, ?_⟩
  · exact (complex_special_states.1 ⟨.nan, .nan⟩ ⟨.fin 0, .fin 0⟩ (Or.inl rfl)).1
  · exact complex_special_states.2.1 ⟨.posInf, .posInf⟩ ⟨.fin 0, .fin 0⟩ rfl rfl
      (Or.inl ⟨rfl, by decide⟩)
  · exact complex_special_states.2.1 ⟨.fin 0, .fin 0⟩ ⟨.posInf, .posInf⟩ rfl rfl
      (Or.inr ⟨by decide, rfl⟩)
  · exact complex_special_states.2.2.1 ⟨.posInf, .posInf⟩ ⟨.fin 0, .fin 0⟩ rfl rfl
      (Or.inl rfl)
  · exact complex_special_states.2.2.2.1 ⟨.posInf, .posInf⟩ ⟨.posInf, .posInf⟩
      rfl rfl (Or.inl rfl) (by rintro ⟨-, hc⟩; revert hc; decide)
      (by rintro ⟨hc, -⟩; revert hc; decide)
  · exact complex_special_states.2.2.2.2 ⟨.fin 0, .fin 0⟩ ⟨.fin 0, .fin 0⟩
      rfl rfl rfl rfl (Or.inl (by decide))

/-! ## toBoolean (Probability.js lines 105-107, Angle.js lines 105-107,
src/unnamed/part_002 lines 60-62) -/

/-- Angle.prototype.toBoolean: the stored value is not 0. -/
def angleToBoolean (storedValue : ℚ) : Bool := storedValue != 0

/-- Name.prototype.toBoolean: always true. -/
def nameToBoolean (_parts : List String) : Bool := true

/-- C8 counterexample: the Probability constructed from 0.25 converts to
false even though its value is non-zero and strictly between 0 and 1,
because Probability.prototype.toBoolean tests value >= 0.5, not
value != 0. -/
theorem probability_quarter_toBoolean_false :
    probabilityCtor (.numV (.fin (1 / 4))) = .value ⟨.fin (1 / 4)⟩
    ∧ Probability.toBoolean ⟨.fin (1 / 4)⟩ = false
    ∧ (0 : ℚ) < 1 / 4 ∧ (1 : ℚ) / 4 < 1 := by
  refine ⟨?_, ?_, by norm_num, by norm_num⟩
  · have hlt : jsLt (.fin (1 / 4)) (.fin 0) = false := by
      have h : jsLt (JSNum.fin (1 / 4)) (.fin 0) = decide ((1 / 4 : ℚ) < 0) := rfl
      rw [h, decide_eq_false_iff_not]
      norm_num
    have hgt : jsGt (.fin (1 / 4)) (.fin 1) = false := by
      have h : jsGt (JSNum.fin (1 / 4)) (.fin 1) = decide ((1 : ℚ) < 1 / 4) := rfl
      rw [h, decide_eq_false_iff_not]
      norm_num
    simp only [probabilityCtor, hlt, hgt, Bool.or_self, Bool.false_eq_true,
      if_false]
  · have h : Probability.toBoolean ⟨.fin (1 / 4)⟩
        = !decide ((1 / 4 : ℚ) < 1 / 2) := rfl
    rw [h, decide_eq_true (by norm_num : (1 / 4 : ℚ) < 1 / 2)]
    rfl

/-- C8 (amended): toBoolean as implemented: a Probability converts to true
exactly when its value is at least one half, so every probability below 0.5
(including values strictly between 0 and 1) converts to false and
Probability 0 is false; an Angle converts to false exactly for the value 0;
a Name always converts to true. -/
theorem toBoolean_spec :
    (∀ q : ℚ, Probability.toBoolean ⟨.fin q⟩ = true ↔ 1 / 2 ≤ q)
    ∧ (∀ v : ℚ, angleToBoolean v = false ↔ v = 0)
    ∧ (∀ parts : List String, nameToBoolean parts = true) := by
  refine ⟨?_, ?_, fun _ => rfl⟩
  · intro q
    have : jsGe (.fin q) (.fin (1 / 2)) = !decide (q < 1 / 2) := rfl
    rw [Probability.toBoolean, this]
    simp [not_lt]
  · intro v
    simp [angleToBoolean]

end BaliDoc
